import Mathlib

/-!
Shallow embedding of the order/cart/checkout logic and the cache facade of
the e-commerce API repository (Django project: apps `orders`, `products`,
`utils`).  Models are translated from the Python source:

* `orders/models.py` — Cart, CartItem, Order, OrderItem, OrderStatusHistory
* `orders/serializers.py` — AddToCartSerializer, UpdateCartItemSerializer,
  CreateOrderSerializer, UpdateOrderStatusSerializer
* `orders/views.py` — AddToCartView, CartItemView, bulk_update_order_status
* `orders/signals.py` — order_post_save
* `utils/cache.py` — CacheManager

Monetary amounts (Python `Decimal`) are modelled as `Nat`; stock counts are
modelled as `Int` so that the non-negativity invariant is a real statement.
Database errors / Python exceptions are modelled with `Except String`.
-/

/-! ## Cache layer (`utils/cache.py`) -/

/-- Literal translation of `CacheManager.TIMEOUTS` (utils/cache.py 21-27). -/
def TIMEOUTS : List (String × Nat) :=
  [("short", 300), ("medium", 1800), ("long", 3600),
   ("very_long", 21600), ("daily", 86400)]

/-- Literal translation of `CacheManager.PREFIXES` (utils/cache.py 30-39). -/
def PREFIXES : List (String × String) :=
  [("product", "product"), ("category", "category"), ("user", "user"),
   ("order", "order"), ("cart", "cart"), ("stats", "stats"),
   ("search", "search"), ("api", "api")]

/-- Python dict lookup `TIMEOUTS.get(s)`. -/
def timeoutsGet (s : String) : Option Nat := TIMEOUTS.lookup s

/-- Timeout resolution performed by `CacheManager.set` (utils/cache.py 79-80):
a string tier is looked up in `TIMEOUTS` with `TIMEOUTS['medium']` as the
default; an integer timeout is passed through. -/
def resolveTimeout : String ⊕ Nat → Nat
  | .inl s => (timeoutsGet s).getD ((timeoutsGet "medium").getD 0)
  | .inr n => n

/-- The cache backend (`django.core.cache.cache` plus the settings consulted by
`delete_pattern`): each primitive either returns a value or raises, modelled
with `Except`. -/
structure CacheBackend (α : Type) where
  getRes : String → Except String (Option α)
  setRes : String → α → Nat → Except String Unit
  delRes : String → Except String Unit
  backendName : String
  hasDeletePattern : Bool
  delPatternRes : String → Except String Nat
  keysRes : String → Except String (List String)
  delManyRes : List String → Except String Unit

/-- Substring test on character lists (Python's `in` operator for `str`). -/
def listContainsSub (sub : List Char) : List Char → Bool
  | [] => sub.isEmpty
  | c :: rest => List.isPrefixOf sub (c :: rest) || listContainsSub sub rest

/-- Python `'redis' in cache_backend.lower()` (utils/cache.py 112). -/
def isRedisBackend (name : String) : Bool :=
  listContainsSub "redis".data (name.data.map Char.toLower)

/-- One positional argument of `CacheManager.generate_key`: either a plain
value (stringified with `str`) or a model instance (rendered as
`ClassName_pk`, utils/cache.py 50-53). -/
inductive KeyArg where
  | plain (s : String)
  | modelInst (cls : String) (pk : Nat)
deriving DecidableEq

/-- Rendering of one positional argument (utils/cache.py 49-53). -/
def KeyArg.render : KeyArg → String
  | .plain s => s
  | .modelInst cls pk => cls ++ "_" ++ toString pk

/-- Order in which Python `sorted(kwargs.items())` arranges keyword-argument
pairs: lexicographic on the (name, value) tuple. -/
def kwLe (a b : String × String) : Prop :=
  a.1 < b.1 ∨ (a.1 = b.1 ∧ a.2 ≤ b.2)

instance : DecidableRel kwLe := fun a b => by
  unfold kwLe; infer_instance

/-- Python `sorted(kwargs.items())` (utils/cache.py 56). -/
def sortKwargs (kw : List (String × String)) : List (String × String) :=
  List.insertionSort kwLe kw

namespace CacheManager

/-- Translation of `CacheManager.generate_key` (utils/cache.py 41-59):
`key_parts` starts with the namespaced prefix, then the rendered positional
arguments, then the sorted keyword arguments as `k_v`, joined with `:`. -/
def generate_key (pfx : String) (args : List KeyArg)
    (kwargs : List (String × String)) : String :=
  let keyParts : List String := [(PREFIXES.lookup pfx).getD pfx]
  let keyParts := keyParts ++ args.map KeyArg.render
  let keyParts := keyParts ++ (sortKwargs kwargs).map (fun kv => kv.1 ++ "_" ++ kv.2)
  String.intercalate ":" keyParts

/-- Translation of `CacheManager.get` (utils/cache.py 61-71): return the
cached value, the supplied default on a miss, and the default again when the
backend raises. -/
def get {α : Type} (b : CacheBackend α) (key : String) (default : α) : α :=
  match b.getRes key with
  | .ok (some v) => v
  | .ok none => default
  | .error _ => default

/-- Translation of `CacheManager.set` (utils/cache.py 73-87): resolve the
timeout tier, call the backend, return `True` on success and `False` when the
backend raises. -/
def set {α : Type} (b : CacheBackend α) (key : String) (value : α)
    (timeout : String ⊕ Nat) : Bool :=
  match b.setRes key value (resolveTimeout timeout) with
  | .ok _ => true
  | .error _ => false

/-- Translation of `CacheManager.delete` (utils/cache.py 89-100). -/
def delete {α : Type} (b : CacheBackend α) (key : String) : Bool :=
  match b.delRes key with
  | .ok _ => true
  | .error _ => false

/-- Body of the `try` block of `CacheManager.delete_pattern`
(utils/cache.py 107-126): Redis backend with `delete_pattern` available, Redis
backend falling back to `keys` + `delete_many`, or non-Redis backend
returning 0. -/
def deletePatternTry {α : Type} (b : CacheBackend α) (pattern : String) :
    Except String Nat :=
  if isRedisBackend b.backendName then
    if b.hasDeletePattern then b.delPatternRes pattern
    else
      match b.keysRes pattern with
      | .error e => .error e
      | .ok keys =>
        if keys.isEmpty then .ok 0
        else
          match b.delManyRes keys with
          | .error e => .error e
          | .ok _ => .ok keys.length
  else .ok 0

/-- Translation of `CacheManager.delete_pattern` (utils/cache.py 102-130):
any exception from the body is swallowed and 0 is returned. -/
def delete_pattern {α : Type} (b : CacheBackend α) (pattern : String) : Nat :=
  match deletePatternTry b pattern with
  | .ok n => n
  | .error _ => 0

end CacheManager

/-! ## Data model (`orders/models.py`, `products/models.py`) -/

/-- The fields of `products.Product` that the cart/checkout logic reads. -/
structure Product where
  id : Nat
  name : String
  price : Nat
  stock : Int
  is_active : Bool
  sku : String
deriving DecidableEq

/-- A `CartItem` row for the (single) user's cart. -/
structure CartItem where
  product_id : Nat
  quantity : Nat
deriving DecidableEq

/-- An `OrderItem` row with product information snapshotted at order time. -/
structure OrderItem where
  product_id : Nat
  quantity : Nat
  product_name : String
  product_price : Nat
  product_sku : String
deriving DecidableEq

/-- The fields of `orders.Order` the claims are about. -/
structure Order where
  id : Nat
  user_id : Nat
  order_number : String
  status : String
  subtotal : Nat
  total_price : Nat
  items : List OrderItem
deriving DecidableEq

/-- An `OrderStatusHistory` row (orders/models.py 253-271). -/
structure OrderStatusHistory where
  order_id : Nat
  old_status : String
  new_status : String
  notes : String
deriving DecidableEq

/-- One `channel_layer.group_send` performed by the `order_post_save` signal
handler (orders/signals.py 52-77), keeping the fields the claims mention. -/
structure Notification where
  group : String
  notification_type : String
  order_id : Nat
  message : String
deriving DecidableEq

/-- Database state for a single user: the product table, the user's cart
items, the order table with history rows, and the auto-increment order id. -/
structure State where
  products : List Product
  cart : List CartItem
  orders : List Order
  histories : List OrderStatusHistory
  next_order_id : Nat
  user_id : Nat
deriving DecidableEq

/-- ORM lookup `Product.objects.get(id=pid)` / foreign-key dereference. -/
def lookupProduct (ps : List Product) (pid : Nat) : Option Product :=
  ps.find? (fun p => p.id == pid)

/-- Write-back of a product's stock (`product.save(update_fields=['stock'])`). -/
def setStock (ps : List Product) (pid : Nat) (s : Int) : List Product :=
  ps.map (fun p => if p.id = pid then { p with stock := s } else p)

/-- Lookup of the cart row for a product (`unique_together ('cart','product')`
makes it unique). -/
def findCartItem (cart : List CartItem) (pid : Nat) : Option CartItem :=
  cart.find? (fun ci => ci.product_id == pid)

/-- Write-back of a cart item's quantity. -/
def setCartQuantity (cart : List CartItem) (pid : Nat) (q : Nat) : List CartItem :=
  cart.map (fun ci => if ci.product_id = pid then { ci with quantity := q } else ci)

/-- Translation of `CartItem.save` (orders/models.py 81-87): raise
`ValueError` when the quantity exceeds the product's stock, otherwise store. -/
def CartItem.save (p : Product) (quantity : Nat) : Except String Unit :=
  if (quantity : Int) > p.stock then
    .error ("Quantity (" ++ toString quantity ++ ") exceeds available stock ("
      ++ toString p.stock ++ ")")
  else .ok ()

/-- Python `f"{id:06d}"`: decimal digits left-padded with zeros to width 6. -/
def formatPad6 (n : Nat) : String :=
  let s := toString n
  if s.length < 6 then String.mk (List.replicate (6 - s.length) '0') ++ s else s

/-- Translation of `Order.save` (orders/models.py 168-179): an order saved
with a falsy (empty) order number is assigned `ORD-` followed by its database
id zero-padded to six digits; otherwise the existing number is kept. -/
def orderNumberOnSave (order_number : String) (oid : Nat) : String :=
  if order_number = "" then "ORD-" ++ formatPad6 oid else order_number

/-- Subtotal of an order item, `OrderItem.subtotal` (orders/models.py 232-237). -/
def OrderItem.subtotal (oi : OrderItem) : Nat := oi.product_price * oi.quantity

/-- Sum of the order items' subtotals. -/
def sumSubtotals (items : List OrderItem) : Nat :=
  (items.map OrderItem.subtotal).sum

/-! ## Cart operations (`orders/views.py`, `orders/serializers.py`) -/

/-- Stock-limit error message used by `AddToCartSerializer.validate` and
`AddToCartView.post`. -/
def stockLimitMsg (p : Product) : String :=
  "Only " ++ toString p.stock ++ " units available in stock."

/-- Translation of `AddToCartView.post` (orders/views.py 51-98) together with
the `AddToCartSerializer` validation (orders/serializers.py 93-120): validate
the product (exists, active, in stock) and the quantity (at least 1, at most
the stock); then either create a new cart row or add the requested quantity to
the existing row, rejecting the merge when the sum exceeds the stock.  Cart
rows are stored through `CartItem.save`. -/
def add_to_cart (st : State) (product_id quantity : Nat) : Except String State :=
  if quantity < 1 then
    .error "Ensure this value is greater than or equal to 1."
  else
    match lookupProduct st.products product_id with
    | none => .error "Product not found or inactive."
    | some p =>
      if p.is_active = false then .error "Product not found or inactive."
      else if p.stock ≤ 0 then .error "Product is out of stock."
      else if (quantity : Int) > p.stock then .error (stockLimitMsg p)
      else
        match findCartItem st.cart product_id with
        | none =>
          match CartItem.save p quantity with
          | .error e => .error e
          | .ok _ => .ok { st with cart := st.cart ++ [⟨product_id, quantity⟩] }
        | some ci =>
          if ((ci.quantity + quantity : Nat) : Int) > p.stock then .error (stockLimitMsg p)
          else
            match CartItem.save p (ci.quantity + quantity) with
            | .error e => .error e
            | .ok _ =>
              .ok { st with
                    cart := setCartQuantity st.cart product_id (ci.quantity + quantity) }

/-- Translation of `CartItemView.patch` (orders/views.py 101-138) with
`UpdateCartItemSerializer` (orders/serializers.py 123-136): 404 when the cart
row does not exist, validation error when the quantity is below 1 or exceeds
the product's stock, otherwise the quantity is written through
`CartItem.save`. -/
def update_cart_item (st : State) (product_id quantity : Nat) : Except String State :=
  match findCartItem st.cart product_id with
  | none => .error "Not Found"
  | some _ =>
    if quantity < 1 then
      .error "Ensure this value is greater than or equal to 1."
    else
      match lookupProduct st.products product_id with
      | none => .error "Product matching query does not exist."
      | some p =>
        if (quantity : Int) > p.stock then .error (stockLimitMsg p)
        else
          match CartItem.save p quantity with
          | .error e => .error e
          | .ok _ => .ok { st with cart := setCartQuantity st.cart product_id quantity }

/-! ## Checkout (`orders/serializers.py` CreateOrderSerializer) -/

/-- The per-item loop of `CreateOrderSerializer.validate`
(orders/serializers.py 231-240): every cart item's product must still exist,
be active, and have at least the requested quantity in stock. -/
def validateCartItems (ps : List Product) : List CartItem → Except String Unit
  | [] => .ok ()
  | ci :: rest =>
    match lookupProduct ps ci.product_id with
    | none => .error "Product matching query does not exist."
    | some p =>
      if p.is_active = false then
        .error ("Product " ++ p.name ++ " is no longer available.")
      else if (ci.quantity : Int) > p.stock then
        .error ("Only " ++ toString p.stock ++ " units of " ++ p.name ++ " available.")
      else validateCartItems ps rest

/-- `Cart.total_price` (orders/models.py 38-43): sum of
`product.price * quantity` over the cart rows; `none` models the foreign-key
dereference failing. -/
def cartTotal (ps : List Product) : List CartItem → Option Nat
  | [] => some 0
  | ci :: rest =>
    match lookupProduct ps ci.product_id with
    | none => none
    | some p =>
      match cartTotal ps rest with
      | none => none
      | some t => some (p.price * ci.quantity + t)

/-- An order item built from a cart item in `CreateOrderSerializer.create`
(orders/serializers.py 266-274): name, sku and price snapshotted from the
product row. -/
def mkOrderItem (p : Product) (ci : CartItem) : OrderItem :=
  { product_id := ci.product_id, quantity := ci.quantity,
    product_name := p.name, product_price := p.price, product_sku := p.sku }

/-- The item loop of `CreateOrderSerializer.create`
(orders/serializers.py 265-278): for each cart item create the order item and
decrement the product's stock by the purchased quantity. -/
def processCartItems (ps : List Product) :
    List CartItem → Option (List OrderItem × List Product)
  | [] => some ([], ps)
  | ci :: rest =>
    match lookupProduct ps ci.product_id with
    | none => none
    | some p =>
      match processCartItems (setStock ps ci.product_id (p.stock - ci.quantity)) rest with
      | none => none
      | some (items, ps') => some (mkOrderItem p ci :: items, ps')

/-- Translation of checkout: `CreateOrderSerializer.validate`
(orders/serializers.py 223-242) followed by the transactional
`CreateOrderSerializer.create` (244-291).  On any validation error the whole
transaction rolls back and the state is unchanged (the caller keeps `st`);
on success the order (with total = cart total and the initial `pending`
history row) is appended, stock is decremented, and the cart is cleared. -/
def create_order (st : State) : Except String State :=
  if st.cart.isEmpty then .error "Cart is empty. Cannot create order."
  else
    match validateCartItems st.products st.cart with
    | .error e => .error e
    | .ok _ =>
      match cartTotal st.products st.cart, processCartItems st.products st.cart with
      | some total, some (items, ps') =>
        let oid := st.next_order_id
        let order : Order :=
          { id := oid, user_id := st.user_id,
            order_number := orderNumberOnSave "" oid,
            status := "pending", subtotal := total, total_price := total,
            items := items }
        .ok { st with
              products := ps',
              cart := [],
              orders := st.orders ++ [order],
              histories := st.histories ++
                [{ order_id := oid, old_status := "", new_status := "pending",
                   notes := "Order created successfully" }],
              next_order_id := oid + 1 }
      | _, _ => .error "IntegrityError"

/-! ## Order status updates (`orders/serializers.py`, `orders/views.py`,
`orders/signals.py`) -/

/-- The first components of `Order.STATUS_CHOICES` (orders/models.py 94-101),
which the `ChoiceField` and the bulk endpoint validate against. -/
def STATUS_CHOICES : List String :=
  ["pending", "processing", "shipped", "delivered", "cancelled", "refunded"]

/-- Literal translation of the `allowed_transitions` dict of
`UpdateOrderStatusSerializer.validate_status` (orders/serializers.py 307-314). -/
def allowed_transitions : List (String × List String) :=
  [("pending", ["confirmed", "cancelled"]),
   ("confirmed", ["shipped", "cancelled"]),
   ("shipped", ["delivered", "returned"]),
   ("delivered", ["returned"]),
   ("cancelled", []),
   ("returned", [])]

/-- Python `allowed_transitions.get(current_status, [])`
(orders/serializers.py 316). -/
def allowedFrom (s : String) : List String :=
  (allowed_transitions.lookup s).getD []

/-- Translation of the `order_post_save` signal handler
(orders/signals.py 19-95): every save broadcasts to the user's personal group
`user_<id>`; only a creation additionally broadcasts to the global `admins`
group. -/
def order_post_save (created : Bool) (o : Order) : List Notification :=
  let userNote : Notification :=
    { group := "user_" ++ toString o.user_id,
      notification_type := if created then "order_created" else "order_updated",
      order_id := o.id,
      message := if created then "New order " ++ o.order_number ++ " has been placed"
        else "Order " ++ o.order_number ++ " status updated" }
  if created then
    [userNote,
     { group := "admins", notification_type := "new_order_admin",
       order_id := o.id,
       message := "New order #" ++ toString o.id }]
  else [userNote]

/-- Translation of the single-order admin update:
`UpdateOrderStatusSerializer.validate_status` (orders/serializers.py 301-321,
with the `ChoiceField` restricting to `STATUS_CHOICES`) followed by `update`
(323-342), whose `instance.save` fires `order_post_save` with
`created=False`.  Returns the updated order, the appended history row, and the
notifications broadcast. -/
def update_order_status (o : Order) (new_status notes : String) :
    Except String (Order × OrderStatusHistory × List Notification) :=
  if STATUS_CHOICES.contains new_status = false then
    .error ("\"" ++ new_status ++ "\" is not a valid choice.")
  else if (allowedFrom o.status).contains new_status = false then
    .error ("Cannot change status from " ++ o.status ++ " to " ++ new_status)
  else
    let o' := { o with status := new_status }
    let hist : OrderStatusHistory :=
      { order_id := o.id, old_status := o.status, new_status := new_status,
        notes := if notes = "" then
          "Status changed from " ++ o.status ++ " to " ++ new_status else notes }
    .ok (o', hist, order_post_save false o')

/-- ORM lookup `Order.objects.get(id=oid)`. -/
def findOrder (db : List Order) (oid : Nat) : Option Order :=
  db.find? (fun o => o.id == oid)

/-- Write-back of an order's status (`order.save(update_fields=['status',...])`). -/
def setOrderStatus (db : List Order) (oid : Nat) (s : String) : List Order :=
  db.map (fun o => if o.id = oid then { o with status := s } else o)

/-- Result of the bulk endpoint: the order table after the loop, the history
rows and notifications produced, and the `updated_orders` / `errors` lists of
the response body. -/
structure BulkOutcome where
  orders : List Order
  histories : List OrderStatusHistory
  notifications : List Notification
  updated_orders : List Nat
  errors : List String
deriving DecidableEq

/-- The per-id loop of `bulk_update_order_status` (orders/views.py 531-554):
look the order up, write the new status unconditionally (no transition
check), append a history row, fire the post-save signal; a missing order only
adds an error string. -/
def bulkLoop (new_status notes : String) : List Nat → List Order → BulkOutcome
  | [], db => { orders := db, histories := [], notifications := [],
                updated_orders := [], errors := [] }
  | oid :: rest, db =>
    match findOrder db oid with
    | none =>
      let out := bulkLoop new_status notes rest db
      { out with errors := ("Order " ++ toString oid ++ " not found") :: out.errors }
    | some o =>
      let o' := { o with status := new_status }
      let hist : OrderStatusHistory :=
        { order_id := o.id, old_status := o.status, new_status := new_status,
          notes := if notes = "" then
            "Bulk status change from " ++ o.status ++ " to " ++ new_status else notes }
      let out := bulkLoop new_status notes rest (setOrderStatus db oid new_status)
      { out with histories := hist :: out.histories,
                 notifications := order_post_save false o' ++ out.notifications,
                 updated_orders := oid :: out.updated_orders }

/-- Translation of `bulk_update_order_status` (orders/views.py 504-560):
reject a missing id list or status, reject a status outside
`Order.STATUS_CHOICES`, then run the update loop — the allowed-transition
table is never consulted. -/
def bulk_update_order_status (db : List Order) (order_ids : List Nat)
    (new_status notes : String) : Except String BulkOutcome :=
  if order_ids.isEmpty || new_status == "" then
    .error "order_ids and status are required"
  else if STATUS_CHOICES.contains new_status = false then
    .error "Invalid status."
  else .ok (bulkLoop new_status notes order_ids db)

/-! ## Operation sequences and invariants -/

/-- The cart/checkout operations of claim C3. -/
inductive Op where
  | add (product_id quantity : Nat)
  | updateItem (product_id quantity : Nat)
  | checkout
deriving DecidableEq

/-- Apply one operation; a rejected request (validation error / rolled-back
transaction) leaves the database unchanged. -/
def applyOp (st : State) : Op → State
  | .add pid q =>
    match add_to_cart st pid q with
    | .ok st' => st'
    | .error _ => st
  | .updateItem pid q =>
    match update_cart_item st pid q with
    | .ok st' => st'
    | .error _ => st
  | .checkout =>
    match create_order st with
    | .ok st' => st'
    | .error _ => st

/-- Run a sequence of operations. -/
def runOps (st : State) (ops : List Op) : State := ops.foldl applyOp st

/-- Database invariants: non-negative stock, primary-key uniqueness of
products, and `unique_together ('cart', 'product')` for the cart. -/
def StateInv (st : State) : Prop :=
  (∀ p ∈ st.products, 0 ≤ p.stock) ∧
  (st.products.map Product.id).Nodup ∧
  (st.cart.map CartItem.product_id).Nodup

instance (st : State) : Decidable (StateInv st) := by
  unfold StateInv; infer_instance

/-! ## Concrete sample data used in witnesses -/

/-- A cache backend whose every primitive raises. -/
def failBackend : CacheBackend Nat :=
  { getRes := fun _ => .error "ConnectionError",
    setRes := fun _ _ _ => .error "ConnectionError",
    delRes := fun _ => .error "ConnectionError",
    backendName := "django_redis.cache.RedisCache",
    hasDeletePattern := true,
    delPatternRes := fun _ => .error "ConnectionError",
    keysRes := fun _ => .error "ConnectionError",
    delManyRes := fun _ => .error "ConnectionError" }

/-- A two-product store with a filled cart, used as a concrete instance. -/
def demoState : State :=
  { products :=
      [{ id := 1, name := "Widget", price := 50, stock := 10, is_active := true, sku := "SKU-1" },
       { id := 2, name := "Gadget", price := 30, stock := 4, is_active := true, sku := "SKU-2" }],
    cart := [⟨1, 2⟩, ⟨2, 1⟩],
    orders := [], histories := [], next_order_id := 1, user_id := 1 }

/-- The order created by checking out `demoState`. -/
def demoOrder : Order :=
  { id := 1, user_id := 1, order_number := "ORD-000001", status := "pending",
    subtotal := 130, total_price := 130,
    items := [{ product_id := 1, quantity := 2, product_name := "Widget",
                product_price := 50, product_sku := "SKU-1" },
              { product_id := 2, quantity := 1, product_name := "Gadget",
                product_price := 30, product_sku := "SKU-2" }] }

/-- The state `demoState` reaches by a successful checkout. -/
def demoAfter : State :=
  { products :=
      [{ id := 1, name := "Widget", price := 50, stock := 8, is_active := true, sku := "SKU-1" },
       { id := 2, name := "Gadget", price := 30, stock := 3, is_active := true, sku := "SKU-2" }],
    cart := [],
    orders := [demoOrder],
    histories := [{ order_id := 1, old_status := "", new_status := "pending",
                    notes := "Order created successfully" }],
    next_order_id := 2, user_id := 1 }

/-- A state whose cart is empty. -/
def emptyCartState : State :=
  { products :=
      [{ id := 1, name := "Widget", price := 50, stock := 10, is_active := true, sku := "SKU-1" }],
    cart := [], orders := [], histories := [], next_order_id := 1, user_id := 1 }

/-- A delivered order, for exercising the status-transition table. -/
def deliveredOrder : Order :=
  { id := 7, user_id := 3, order_number := "ORD-000007", status := "delivered",
    subtotal := 100, total_price := 100, items := [] }

/-- A pending order, for exercising the status-update path. -/
def pendingOrder : Order :=
  { id := 5, user_id := 1, order_number := "ORD-000005", status := "pending",
    subtotal := 20, total_price := 20, items := [] }

/-! ## Theorems -/

/-! ### Sorting facts for `generate_key` -/

instance : IsTotal (String × String) kwLe :=
  ⟨fun a b => by
    rcases lt_trichotomy a.1 b.1 with h | h | h
    · exact Or.inl (Or.inl h)
    · rcases le_total a.2 b.2 with h2 | h2
      · exact Or.inl (Or.inr ⟨h, h2⟩)
      · exact Or.inr (Or.inr ⟨h.symm, h2⟩)
    · exact Or.inr (Or.inl h)⟩

instance : IsTrans (String × String) kwLe :=
  ⟨fun a b c hab hbc => by
    rcases hab with h1 | ⟨e1, l1⟩
    · rcases hbc with h2 | ⟨e2, l2⟩
      · exact Or.inl (h1.trans h2)
      · exact Or.inl (by rw [← e2]; exact h1)
    · rcases hbc with h2 | ⟨e2, l2⟩
      · exact Or.inl (by rw [e1]; exact h2)
      · exact Or.inr ⟨e1.trans e2, l1.trans l2⟩⟩

instance : IsAntisymm (String × String) kwLe :=
  ⟨fun a b hab hba => by
    rcases hab with h1 | ⟨e1, l1⟩
    · rcases hba with h2 | ⟨e2, l2⟩
      · exact absurd h2 (lt_asymm h1)
      · rw [e2] at h1; exact absurd h1 (lt_irrefl a.1)
    · rcases hba with h2 | ⟨e2, l2⟩
      · rw [e1] at h2; exact absurd h2 (lt_irrefl b.1)
      · exact Prod.ext e1 (le_antisymm l1 l2)⟩

theorem sortKwargs_sorted (kw : List (String × String)) :
    List.Sorted kwLe (sortKwargs kw) :=
  List.sorted_insertionSort kwLe kw

theorem sortKwargs_perm (kw : List (String × String)) :
    List.Perm (sortKwargs kw) kw :=
  List.perm_insertionSort kwLe kw

theorem sortKwargs_eq_of_perm {kw₁ kw₂ : List (String × String)}
    (h : List.Perm kw₁ kw₂) : sortKwargs kw₁ = sortKwargs kw₂ :=
  List.eq_of_perm_of_sorted
    ((sortKwargs_perm kw₁).trans (h.trans (sortKwargs_perm kw₂).symm))
    (sortKwargs_sorted kw₁) (sortKwargs_sorted kw₂)

theorem cmSet_true_iff {α : Type} (b : CacheBackend α) (k : String) (v : α)
    (t : String ⊕ Nat) :
    CacheManager.set b k v t = true ↔ b.setRes k v (resolveTimeout t) = .ok () := by
  unfold CacheManager.set
  cases h : b.setRes k v (resolveTimeout t) with
  | ok u => cases u; simp
  | error e => simp

theorem lookup_eq_none_of_not_mem {β : Type} (l : List (String × β)) (s : String)
    (h : s ∉ l.map Prod.fst) : l.lookup s = none := by
  induction l with
  | nil => rfl
  | cons hd tl ih =>
    obtain ⟨k, v⟩ := hd
    simp only [List.map_cons, List.mem_cons] at h
    push_neg at h
    obtain ⟨h1, h2⟩ := h
    simp [List.lookup, beq_eq_false_iff_ne.mpr h1, ih h2]

theorem resolveTimeout_unknown {s : String} (hs : s ∉ TIMEOUTS.map Prod.fst) :
    resolveTimeout (Sum.inl s) = 1800 := by
  show (timeoutsGet s).getD ((timeoutsGet "medium").getD 0) = 1800
  unfold timeoutsGet
  rw [lookup_eq_none_of_not_mem _ _ hs]
  rfl

/-- Claim C7: `CacheManager.set` called with a named TTL tier stores the value
with that tier's fixed timeout (short=300s, medium=1800s, long=3600s,
very_long=21600s, daily=86400s), falling back to the medium timeout for an
unrecognized tier name; and `CacheManager.generate_key` builds every key by
joining the group's namespace prefix and the stringified arguments with `:`
(keyword arguments sorted by name), so equal inputs — equal as keyword-argument
sets, i.e. up to permutation of the pairs — always yield equal keys. -/
theorem cache_tiers_and_keys_c7 :
    (∀ (α : Type) (b : CacheBackend α) (k : String) (v : α),
      (CacheManager.set b k v (Sum.inl "short") = true ↔ b.setRes k v 300 = .ok ()) ∧
      (CacheManager.set b k v (Sum.inl "medium") = true ↔ b.setRes k v 1800 = .ok ()) ∧
      (CacheManager.set b k v (Sum.inl "long") = true ↔ b.setRes k v 3600 = .ok ()) ∧
      (CacheManager.set b k v (Sum.inl "very_long") = true ↔ b.setRes k v 21600 = .ok ()) ∧
      (CacheManager.set b k v (Sum.inl "daily") = true ↔ b.setRes k v 86400 = .ok ()) ∧
      (∀ s : String, s ∉ TIMEOUTS.map Prod.fst →
        (CacheManager.set b k v (Sum.inl s) = true ↔ b.setRes k v 1800 = .ok ()))) ∧
    (∀ (pfx : String) (args : List KeyArg) (kw : List (String × String)),
      CacheManager.generate_key pfx args kw =
        String.intercalate ":" (((PREFIXES.lookup pfx).getD pfx) ::
          (args.map KeyArg.render ++
            (sortKwargs kw).map (fun kv => kv.1 ++ "_" ++ kv.2)))) ∧
    (∀ (pfx : String) (args : List KeyArg) (kw₁ kw₂ : List (String × String)),
      List.Perm kw₁ kw₂ →
      CacheManager.generate_key pfx args kw₁ = CacheManager.generate_key pfx args kw₂) := by
  refine ⟨fun α b k v => ⟨?_, ?_, ?_, ?_, ?_, fun s hs => ?_⟩, fun pfx args kw => ?_, ?_⟩
  · rw [cmSet_true_iff]; rfl
  · rw [cmSet_true_iff]; rfl
  · rw [cmSet_true_iff]; rfl
  · rw [cmSet_true_iff]; rfl
  · rw [cmSet_true_iff]; rfl
  · rw [cmSet_true_iff, resolveTimeout_unknown hs]
  · unfold CacheManager.generate_key
    simp
  · intro pfx args kw₁ kw₂ h
    unfold CacheManager.generate_key
    rw [sortKwargs_eq_of_perm h]

theorem cache_tiers_and_keys_c7_witness :
    ("weekly" ∉ TIMEOUTS.map Prod.fst) ∧
    (List.Perm ([("b", "2"), ("a", "1")] : List (String × String)) [("a", "1"), ("b", "2")]) ∧
    (CacheManager.set failBackend "k" 5 (Sum.inl "weekly") = true ↔
      failBackend.setRes "k" 5 1800 = .ok ()) ∧
    (CacheManager.generate_key "user" [KeyArg.plain "orders"] [("b", "2"), ("a", "1")] =
      CacheManager.generate_key "user" [KeyArg.plain "orders"] [("a", "1"), ("b", "2")]) :=
  ⟨by decide, by decide,
    (cache_tiers_and_keys_c7.1 Nat failBackend "k" 5).2.2.2.2.2 "weekly" (by decide),
    cache_tiers_and_keys_c7.2.2 "user" [KeyArg.plain "orders"] _ _ (by decide)⟩

/-! ### Claim C9: order-number assignment -/

theorem string_mk_append (l : List Char) (s : String) :
    String.mk l ++ s = String.mk (l ++ s.data) := by
  cases s; rfl

/-- Claim C9: every `Order` saved without an order number is assigned one of
the form `ORD-` followed by its database id zero-padded to six digits, and an
`Order` saved with a non-empty order number keeps the number it already has. -/
theorem order_number_on_save_c9 :
    (∀ oid : Nat, orderNumberOnSave "" oid = "ORD-" ++ formatPad6 oid ∧
      ∃ k : Nat, formatPad6 oid = String.mk (List.replicate k '0' ++ (toString oid).data) ∧
        k + (toString oid).length = max 6 (toString oid).length) ∧
    (∀ (num : String) (oid : Nat), num ≠ "" → orderNumberOnSave num oid = num) := by
  constructor
  · intro oid
    refine ⟨rfl, ?_⟩
    unfold formatPad6
    by_cases h : (toString oid).length < 6
    · refine ⟨6 - (toString oid).length, ?_, ?_⟩
      · rw [if_pos h, string_mk_append]
      · have : max 6 (toString oid).length = 6 := Nat.max_eq_left (Nat.le_of_lt h)
        omega
    · refine ⟨0, ?_, ?_⟩
      · rw [if_neg h]; rfl
      · have h6 : 6 ≤ (toString oid).length := Nat.le_of_not_lt h
        have : max 6 (toString oid).length = (toString oid).length := Nat.max_eq_right h6
        omega
  · intro num oid hnum
    unfold orderNumberOnSave
    rw [if_neg hnum]

theorem order_number_on_save_c9_witness :
    ("ORD-000042" ≠ "") ∧ orderNumberOnSave "ORD-000042" 7 = "ORD-000042" :=
  ⟨by decide, order_number_on_save_c9.2 "ORD-000042" 7 (by decide)⟩

/-! ### Claim C10: cache error swallowing -/

/-- Claim C10: `CacheManager.get`, `set`, `delete` and `delete_pattern` never
propagate a cache-backend exception to the caller: on backend failure `get`
returns the supplied default, `set` and `delete` return `False`, and
`delete_pattern` returns 0. -/
theorem cache_error_swallowing_c10 :
    ∀ (α : Type) (b : CacheBackend α) (k pat : String) (v d : α)
      (t : String ⊕ Nat) (e : String),
      (b.getRes k = .error e → CacheManager.get b k d = d) ∧
      (b.setRes k v (resolveTimeout t) = .error e → CacheManager.set b k v t = false) ∧
      (b.delRes k = .error e → CacheManager.delete b k = false) ∧
      (CacheManager.deletePatternTry b pat = .error e →
        CacheManager.delete_pattern b pat = 0) := by
  intro α b k pat v d t e
  refine ⟨fun h => ?_, fun h => ?_, fun h => ?_, fun h => ?_⟩
  · unfold CacheManager.get; rw [h]
  · unfold CacheManager.set; rw [h]
  · unfold CacheManager.delete; rw [h]
  · unfold CacheManager.delete_pattern; rw [h]

theorem cache_error_swallowing_c10_witness :
    (failBackend.getRes "k" = .error "ConnectionError") ∧
    CacheManager.get failBackend "k" 7 = 7 ∧
    CacheManager.set failBackend "k" 1 (Sum.inl "short") = false ∧
    CacheManager.delete failBackend "k" = false ∧
    CacheManager.delete_pattern failBackend "user:1:orders:*" = 0 :=
  have h := cache_error_swallowing_c10 Nat failBackend "k" "user:1:orders:*" 1 7
    (Sum.inl "short") "ConnectionError"
  ⟨rfl, h.1 rfl, h.2.1 rfl, h.2.2.1 rfl, h.2.2.2 rfl⟩

/-! ### Lookup and write-back lemmas -/

theorem find?_map_preserve {α : Type} (f : α → α) (q : α → Bool)
    (hq : ∀ a, q (f a) = q a) (l : List α) :
    (l.map f).find? q = (l.find? q).map f := by
  induction l with
  | nil => rfl
  | cons a t ih =>
    by_cases h : q a
    · simp [List.find?, hq, h]
    · simp [List.find?, hq, h, ih]

theorem lookupProduct_setStock (ps : List Product) (pid : Nat) (s : Int) (pid' : Nat) :
    lookupProduct (setStock ps pid s) pid' =
      (lookupProduct ps pid').map
        (fun p => if p.id = pid then { p with stock := s } else p) := by
  unfold lookupProduct setStock
  apply find?_map_preserve
  intro p
  by_cases h : p.id = pid <;> simp [h]

theorem findCartItem_setCartQuantity (cart : List CartItem) (pid : Nat) (q : Nat)
    (pid' : Nat) :
    findCartItem (setCartQuantity cart pid q) pid' =
      (findCartItem cart pid').map
        (fun ci => if ci.product_id = pid then { ci with quantity := q } else ci) := by
  unfold findCartItem setCartQuantity
  apply find?_map_preserve
  intro ci
  by_cases h : ci.product_id = pid <;> simp [h]

theorem lookupProduct_id {ps : List Product} {pid : Nat} {p : Product}
    (h : lookupProduct ps pid = some p) : p.id = pid := by
  have := List.find?_some h
  simpa using this

theorem lookupProduct_mem {ps : List Product} {pid : Nat} {p : Product}
    (h : lookupProduct ps pid = some p) : p ∈ ps :=
  List.mem_of_find?_eq_some h

theorem findCartItem_id {cart : List CartItem} {pid : Nat} {ci : CartItem}
    (h : findCartItem cart pid = some ci) : ci.product_id = pid := by
  have := List.find?_some h
  simpa using this

theorem findCartItem_none {cart : List CartItem} {pid : Nat}
    (h : findCartItem cart pid = none) : pid ∉ cart.map CartItem.product_id := by
  intro hmem
  obtain ⟨ci, hci, hpid⟩ := List.mem_map.mp hmem
  have := List.find?_eq_none.mp h ci hci
  simp [hpid] at this

theorem mem_lookup_self {ps : List Product}
    (hnd : (ps.map Product.id).Nodup) {p : Product} (hp : p ∈ ps) :
    lookupProduct ps p.id = some p := by
  induction ps with
  | nil => cases hp
  | cons a t ih =>
    rw [List.map_cons, List.nodup_cons] at hnd
    rcases List.mem_cons.mp hp with rfl | hmem
    · simp [lookupProduct, List.find?]
    · have hne : (a.id == p.id) = false := by
        have : a.id ≠ p.id := fun he => hnd.1 (he ▸ List.mem_map_of_mem Product.id hmem)
        simpa using this
      simp only [lookupProduct, List.find?, hne]
      exact ih hnd.2 hmem

theorem setStock_map_id (ps : List Product) (pid : Nat) (s : Int) :
    (setStock ps pid s).map Product.id = ps.map Product.id := by
  unfold setStock
  rw [List.map_map]
  apply List.map_congr_left
  intro p _
  by_cases h : p.id = pid <;> simp [h]

theorem setCartQuantity_map_pid (cart : List CartItem) (pid : Nat) (q : Nat) :
    (setCartQuantity cart pid q).map CartItem.product_id =
      cart.map CartItem.product_id := by
  unfold setCartQuantity
  rw [List.map_map]
  apply List.map_congr_left
  intro ci _
  by_cases h : ci.product_id = pid <;> simp [h]

/-! ### Checkout validation lemmas -/

theorem validateCartItems_ok_spec {ps : List Product} {cart : List CartItem}
    (h : validateCartItems ps cart = .ok ()) :
    ∀ ci ∈ cart, ∃ p, lookupProduct ps ci.product_id = some p ∧
      p.is_active = true ∧ (ci.quantity : Int) ≤ p.stock := by
  induction cart with
  | nil => intro ci hci; cases hci
  | cons c rest ih =>
    intro ci hci
    unfold validateCartItems at h
    cases hl : lookupProduct ps c.product_id with
    | none => simp only [hl] at h; exact absurd h (by simp)
    | some p =>
      simp only [hl] at h
      by_cases ha : p.is_active = false
      · rw [if_pos ha] at h; simp at h
      · rw [if_neg ha] at h
        by_cases hs : (c.quantity : Int) > p.stock
        · rw [if_pos hs] at h; simp at h
        · rw [if_neg hs] at h
          rcases List.mem_cons.mp hci with rfl | hmem
          · exact ⟨p, hl, by simpa using ha, le_of_not_lt hs⟩
          · exact ih h ci hmem

theorem validateCartItems_ok_of_spec {ps : List Product} {cart : List CartItem}
    (h : ∀ ci ∈ cart, ∃ p, lookupProduct ps ci.product_id = some p ∧
      p.is_active = true ∧ (ci.quantity : Int) ≤ p.stock) :
    validateCartItems ps cart = .ok () := by
  induction cart with
  | nil => rfl
  | cons c rest ih =>
    obtain ⟨p, hl, ha, hs⟩ := h c (List.mem_cons_self c rest)
    unfold validateCartItems
    simp only [hl]
    rw [if_neg (by simp [ha]), if_neg (not_lt.mpr hs)]
    exact ih fun ci hci => h ci (List.mem_cons_of_mem c hci)

theorem validateCartItems_error_spec {ps : List Product} {cart : List CartItem}
    {e : String} (h : validateCartItems ps cart = .error e) :
    (∃ ci ∈ cart, lookupProduct ps ci.product_id = none) ∨
    (∃ ci ∈ cart, ∃ p, lookupProduct ps ci.product_id = some p ∧
      (p.is_active = false ∨ (ci.quantity : Int) > p.stock)) := by
  induction cart with
  | nil => simp [validateCartItems] at h
  | cons c rest ih =>
    unfold validateCartItems at h
    cases hl : lookupProduct ps c.product_id with
    | none => exact Or.inl ⟨c, List.mem_cons_self c rest, hl⟩
    | some p =>
      simp only [hl] at h
      by_cases ha : p.is_active = false
      · exact Or.inr ⟨c, List.mem_cons_self c rest, p, hl, Or.inl ha⟩
      · rw [if_neg ha] at h
        by_cases hs : (c.quantity : Int) > p.stock
        · exact Or.inr ⟨c, List.mem_cons_self c rest, p, hl, Or.inr hs⟩
        · rw [if_neg hs] at h
          rcases ih h with ⟨ci, hci, hl'⟩ | ⟨ci, hci, p', hl', hbad⟩
          · exact Or.inl ⟨ci, List.mem_cons_of_mem c hci, hl'⟩
          · exact Or.inr ⟨ci, List.mem_cons_of_mem c hci, p', hl', hbad⟩

/-! ### Cart total and item-processing lemmas -/

theorem cartTotal_setStock (ps : List Product) (pid : Nat) (s : Int)
    (cart : List CartItem) :
    cartTotal (setStock ps pid s) cart = cartTotal ps cart := by
  induction cart with
  | nil => rfl
  | cons c rest ih =>
    unfold cartTotal
    rw [lookupProduct_setStock, ih]
    cases hl : lookupProduct ps c.product_id with
    | none => rfl
    | some p => by_cases hp : p.id = pid <;> simp [hp]

theorem cartTotal_isSome {ps : List Product} {cart : List CartItem}
    (h : ∀ ci ∈ cart, (lookupProduct ps ci.product_id).isSome) :
    ∃ t, cartTotal ps cart = some t := by
  induction cart with
  | nil => exact ⟨0, rfl⟩
  | cons c rest ih =>
    obtain ⟨p, hp⟩ := Option.isSome_iff_exists.mp (h c (List.mem_cons_self c rest))
    obtain ⟨t, ht⟩ := ih fun ci hci => h ci (List.mem_cons_of_mem c hci)
    exact ⟨p.price * c.quantity + t, by unfold cartTotal; simp only [hp, ht]⟩

theorem processCartItems_isSome {cart : List CartItem} {ps : List Product}
    (h : ∀ ci ∈ cart, (lookupProduct ps ci.product_id).isSome) :
    ∃ items ps', processCartItems ps cart = some (items, ps') := by
  induction cart generalizing ps with
  | nil => exact ⟨[], ps, rfl⟩
  | cons c rest ih =>
    obtain ⟨p, hp⟩ := Option.isSome_iff_exists.mp (h c (List.mem_cons_self c rest))
    have hrest : ∀ ci ∈ rest,
        (lookupProduct (setStock ps c.product_id (p.stock - c.quantity))
          ci.product_id).isSome := by
      intro ci hci
      rw [lookupProduct_setStock, Option.isSome_map']
      exact h ci (List.mem_cons_of_mem c hci)
    obtain ⟨items, ps', hps⟩ := ih hrest
    exact ⟨mkOrderItem p c :: items, ps', by unfold processCartItems; simp only [hp, hps]⟩

theorem processCartItems_map_id {cart : List CartItem} {ps : List Product}
    {items : List OrderItem} {ps' : List Product}
    (h : processCartItems ps cart = some (items, ps')) :
    ps'.map Product.id = ps.map Product.id := by
  induction cart generalizing ps items with
  | nil =>
    unfold processCartItems at h
    simp only [Option.some.injEq, Prod.mk.injEq] at h
    rw [← h.2]
  | cons c rest ih =>
    unfold processCartItems at h
    cases hl : lookupProduct ps c.product_id with
    | none => simp only [hl] at h; cases h
    | some p =>
      simp only [hl] at h
      cases hr : processCartItems (setStock ps c.product_id (p.stock - c.quantity)) rest with
      | none => simp only [hr] at h; cases h
      | some pair =>
        obtain ⟨items', ps''⟩ := pair
        simp only [hr, Option.some.injEq, Prod.mk.injEq] at h
        obtain ⟨h1, h2⟩ := h
        subst h2
        rw [ih hr, setStock_map_id]

theorem cartTotal_processCartItems {cart : List CartItem} {ps : List Product}
    {items : List OrderItem} {ps' : List Product}
    (h : processCartItems ps cart = some (items, ps')) :
    cartTotal ps cart = some (sumSubtotals items) := by
  induction cart generalizing ps items with
  | nil =>
    unfold processCartItems at h
    simp only [Option.some.injEq, Prod.mk.injEq] at h
    rw [← h.1]
    rfl
  | cons c rest ih =>
    unfold processCartItems at h
    cases hl : lookupProduct ps c.product_id with
    | none => simp only [hl] at h; cases h
    | some p =>
      simp only [hl] at h
      cases hr : processCartItems (setStock ps c.product_id (p.stock - c.quantity)) rest with
      | none => simp only [hr] at h; cases h
      | some pair =>
        obtain ⟨items', ps''⟩ := pair
        simp only [hr, Option.some.injEq, Prod.mk.injEq] at h
        obtain ⟨h1, h2⟩ := h
        subst h2
        have ht : cartTotal ps rest = some (sumSubtotals items') := by
          rw [← cartTotal_setStock ps c.product_id (p.stock - c.quantity) rest]
          exact ih hr
        unfold cartTotal
        simp only [hl, ht]
        rw [← h1]
        simp [sumSubtotals, OrderItem.subtotal, mkOrderItem]

theorem processCartItems_prices {cart : List CartItem} {ps : List Product}
    {items : List OrderItem} {ps' : List Product}
    (h : processCartItems ps cart = some (items, ps')) :
    ∀ oi ∈ items, ∃ p ci, ci ∈ cart ∧ lookupProduct ps ci.product_id = some p ∧
      oi = mkOrderItem p ci := by
  induction cart generalizing ps items with
  | nil =>
    unfold processCartItems at h
    simp only [Option.some.injEq, Prod.mk.injEq] at h
    rw [← h.1]
    intro oi hoi
    cases hoi
  | cons c rest ih =>
    unfold processCartItems at h
    cases hl : lookupProduct ps c.product_id with
    | none => simp only [hl] at h; cases h
    | some p =>
      simp only [hl] at h
      cases hr : processCartItems (setStock ps c.product_id (p.stock - c.quantity)) rest with
      | none => simp only [hr] at h; cases h
      | some pair =>
        obtain ⟨items', ps''⟩ := pair
        simp only [hr, Option.some.injEq, Prod.mk.injEq] at h
        obtain ⟨h1, h2⟩ := h
        subst h2
        rw [← h1]
        intro oi hoi
        rcases List.mem_cons.mp hoi with rfl | hmem
        · exact ⟨p, c, List.mem_cons_self c rest, hl, rfl⟩
        · obtain ⟨q, ci, hci, hq, hoe⟩ := ih hr oi hmem
          rw [lookupProduct_setStock] at hq
          cases hq0 : lookupProduct ps ci.product_id with
          | none => rw [hq0] at hq; simp at hq
          | some p0 =>
            rw [hq0] at hq
            simp only [Option.map_some', Option.some.injEq] at hq
            refine ⟨p0, ci, List.mem_cons_of_mem c hci, hq0, ?_⟩
            rw [hoe, ← hq]
            by_cases hid : p0.id = c.product_id <;> simp [mkOrderItem, hid]

theorem processCartItems_stock {cart : List CartItem} {ps : List Product}
    {items : List OrderItem} {ps' : List Product}
    (hnd : (cart.map CartItem.product_id).Nodup)
    (h : processCartItems ps cart = some (items, ps')) :
    (∀ ci ∈ cart, ∀ p, lookupProduct ps ci.product_id = some p →
       lookupProduct ps' ci.product_id =
         some { p with stock := p.stock - (ci.quantity : Int) }) ∧
    (∀ pid : Nat, pid ∉ cart.map CartItem.product_id →
       lookupProduct ps' pid = lookupProduct ps pid) := by
  induction cart generalizing ps items with
  | nil =>
    unfold processCartItems at h
    simp only [Option.some.injEq, Prod.mk.injEq] at h
    obtain ⟨h1, h2⟩ := h
    subst h2
    exact ⟨fun ci hci => absurd hci (List.not_mem_nil ci), fun pid _ => rfl⟩
  | cons c rest ih =>
    rw [List.map_cons, List.nodup_cons] at hnd
    obtain ⟨hnotin, hndrest⟩ := hnd
    unfold processCartItems at h
    cases hl : lookupProduct ps c.product_id with
    | none => simp only [hl] at h; cases h
    | some p =>
      simp only [hl] at h
      cases hr : processCartItems (setStock ps c.product_id (p.stock - c.quantity)) rest with
      | none => simp only [hr] at h; cases h
      | some pair =>
        obtain ⟨items', ps''⟩ := pair
        simp only [hr, Option.some.injEq, Prod.mk.injEq] at h
        obtain ⟨h1, h2⟩ := h
        subst h2
        obtain ⟨ihdec, ihpres⟩ := ih hndrest hr
        constructor
        · intro ci hci q hq
          rcases List.mem_cons.mp hci with rfl | hmem
          · have hqp : q = p := by rw [hl] at hq; exact (Option.some.inj hq).symm
            subst hqp
            rw [ihpres ci.product_id hnotin, lookupProduct_setStock, hl]
            have hid := lookupProduct_id hl
            simp [hid]
          · have hne : ci.product_id ≠ c.product_id := fun he =>
              hnotin (he ▸ List.mem_map_of_mem CartItem.product_id hmem)
            have hq1 : lookupProduct (setStock ps c.product_id (p.stock - c.quantity))
                ci.product_id = some q := by
              rw [lookupProduct_setStock, hq]
              have hid := lookupProduct_id hq
              simp [hid, hne]
            exact ihdec ci hmem q hq1
        · intro pid hpid
          rw [List.map_cons, List.mem_cons] at hpid
          push_neg at hpid
          rw [ihpres pid hpid.2, lookupProduct_setStock]
          cases hl2 : lookupProduct ps pid with
          | none => rfl
          | some q =>
            have hid := lookupProduct_id hl2
            simp [hid, hpid.1]

theorem create_order_ok_elim {st st' : State} (h : create_order st = .ok st') :
    validateCartItems st.products st.cart = .ok () ∧
    ∃ total items ps',
      cartTotal st.products st.cart = some total ∧
      processCartItems st.products st.cart = some (items, ps') ∧
      st'.products = ps' ∧ st'.cart = [] ∧
      st'.orders = st.orders ++
        [{ id := st.next_order_id, user_id := st.user_id,
           order_number := orderNumberOnSave "" st.next_order_id,
           status := "pending", subtotal := total, total_price := total,
           items := items }] ∧
      st'.histories = st.histories ++
        [{ order_id := st.next_order_id, old_status := "", new_status := "pending",
           notes := "Order created successfully" }] ∧
      st'.next_order_id = st.next_order_id + 1 ∧
      st'.user_id = st.user_id := by
  unfold create_order at h
  by_cases hemp : st.cart.isEmpty
  · rw [if_pos hemp] at h; cases h
  · rw [if_neg hemp] at h
    cases hv : validateCartItems st.products st.cart with
    | error e => simp only [hv] at h; cases h
    | ok u =>
      cases u
      simp only [hv] at h
      cases ht : cartTotal st.products st.cart with
      | none => simp only [ht] at h; cases h
      | some total =>
        cases hp : processCartItems st.products st.cart with
        | none => simp only [ht, hp] at h; cases h
        | some pair =>
          obtain ⟨items, ps'⟩ := pair
          simp only [ht, hp] at h
          refine ⟨rfl, total, items, ps', rfl, rfl, ?_⟩
          obtain rfl := (Except.ok.inj h).symm
          exact ⟨rfl, rfl, rfl, rfl, rfl, rfl⟩

theorem create_order_nonneg {st st' : State} (hInv : StateInv st)
    (h : create_order st = .ok st') : ∀ p' ∈ st'.products, 0 ≤ p'.stock := by
  obtain ⟨hstock, hndp, hndc⟩ := hInv
  obtain ⟨hv, total, items, ps', ht, hp, hprod, hcart, horders, hhist, hnext, huid⟩ :=
    create_order_ok_elim h
  intro p' hp'
  rw [hprod] at hp'
  have hids : ps'.map Product.id = st.products.map Product.id :=
    processCartItems_map_id hp
  have hnd' : (ps'.map Product.id).Nodup := hids ▸ hndp
  have hlook' : lookupProduct ps' p'.id = some p' := mem_lookup_self hnd' hp'
  obtain ⟨hdec, hpres⟩ := processCartItems_stock hndc hp
  by_cases hin : p'.id ∈ st.cart.map CartItem.product_id
  · obtain ⟨ci, hci, hcid⟩ := List.mem_map.mp hin
    obtain ⟨pp, hpp, hact, hqty⟩ := validateCartItems_ok_spec hv ci hci
    have hdeci := hdec ci hci pp hpp
    rw [hcid] at hdeci
    rw [hdeci] at hlook'
    have heq : p' = { pp with stock := pp.stock - (ci.quantity : Int) } :=
      (Option.some.inj hlook').symm
    rw [heq]
    exact sub_nonneg.mpr hqty
  · have hsame := hpres p'.id hin
    rw [hsame] at hlook'
    exact hstock p' (lookupProduct_mem hlook')

theorem add_to_cart_ok_elim {st : State} {pid q : Nat} {st' : State}
    (h : add_to_cart st pid q = .ok st') :
    st'.products = st.products ∧ st'.orders = st.orders ∧
    st'.histories = st.histories ∧ st'.next_order_id = st.next_order_id ∧
    st'.user_id = st.user_id ∧
    ((findCartItem st.cart pid = none ∧ st'.cart = st.cart ++ [⟨pid, q⟩]) ∨
     (∃ ci, findCartItem st.cart pid = some ci ∧
        st'.cart = setCartQuantity st.cart pid (ci.quantity + q))) := by
  unfold add_to_cart at h
  split at h
  · cases h
  · split at h
    · cases h
    next p hp =>
      split at h
      · cases h
      · split at h
        · cases h
        · split at h
          · cases h
          · split at h
            next hfind =>
              split at h
              · cases h
              · cases h
                exact ⟨rfl, rfl, rfl, rfl, rfl, Or.inl ⟨hfind, rfl⟩⟩
            next ci hfind =>
              split at h
              · cases h
              · split at h
                · cases h
                · cases h
                  exact ⟨rfl, rfl, rfl, rfl, rfl, Or.inr ⟨ci, hfind, rfl⟩⟩

theorem update_cart_item_ok_elim {st : State} {pid q : Nat} {st' : State}
    (h : update_cart_item st pid q = .ok st') :
    st'.products = st.products ∧ st'.cart = setCartQuantity st.cart pid q ∧
    st'.orders = st.orders ∧ st'.histories = st.histories ∧
    st'.next_order_id = st.next_order_id ∧ st'.user_id = st.user_id := by
  unfold update_cart_item at h
  split at h
  · cases h
  · split at h
    · cases h
    · split at h
      · cases h
      next p hp =>
        split at h
        · cases h
        · split at h
          · cases h
          · cases h
            exact ⟨rfl, rfl, rfl, rfl, rfl, rfl⟩

theorem add_to_cart_merge_reject {st : State} {pid q : Nat} {ci : CartItem}
    {p : Product} (hfind : findCartItem st.cart pid = some ci)
    (hp : lookupProduct st.products pid = some p)
    (hact : p.is_active = true) (hstock : 0 < p.stock) (hq1 : 1 ≤ q)
    (hqle : (q : Int) ≤ p.stock)
    (hover : (ci.quantity : Int) + (q : Int) > p.stock) :
    add_to_cart st pid q = .error (stockLimitMsg p) := by
  unfold add_to_cart
  rw [if_neg (by omega)]
  simp only [hp]
  rw [if_neg (by simp [hact]), if_neg (not_le.mpr hstock), if_neg (not_lt.mpr hqle)]
  simp only [hfind]
  rw [if_pos (by push_cast; exact hover)]

theorem applyOp_inv {st : State} (hInv : StateInv st) (op : Op) :
    StateInv (applyOp st op) := by
  obtain ⟨hstock, hndp, hndc⟩ := hInv
  cases op with
  | add pid q =>
    simp only [applyOp]
    cases hres : add_to_cart st pid q with
    | error e => exact ⟨hstock, hndp, hndc⟩
    | ok st' =>
      obtain ⟨hprod, -, -, -, -, hcart⟩ := add_to_cart_ok_elim hres
      refine ⟨by rw [hprod]; exact hstock, by rw [hprod]; exact hndp, ?_⟩
      rcases hcart with ⟨hfind, hc⟩ | ⟨ci, hfind, hc⟩
      · rw [hc, List.map_append, List.nodup_append]
        refine ⟨hndc, by simp, ?_⟩
        intro a ha hmem
        simp only [List.map_cons, List.map_nil, List.mem_singleton] at hmem
        subst hmem
        exact findCartItem_none hfind ha
      · rw [hc, setCartQuantity_map_pid]
        exact hndc
  | updateItem pid q =>
    simp only [applyOp]
    cases hres : update_cart_item st pid q with
    | error e => exact ⟨hstock, hndp, hndc⟩
    | ok st' =>
      obtain ⟨hprod, hcart, -, -, -, -⟩ := update_cart_item_ok_elim hres
      exact ⟨by rw [hprod]; exact hstock, by rw [hprod]; exact hndp,
        by rw [hcart, setCartQuantity_map_pid]; exact hndc⟩
  | checkout =>
    simp only [applyOp]
    cases hres : create_order st with
    | error e => exact ⟨hstock, hndp, hndc⟩
    | ok st' =>
      have hnn := create_order_nonneg ⟨hstock, hndp, hndc⟩ hres
      obtain ⟨-, total, items, ps', -, hpr, hprod, hcart, -, -, -, -⟩ :=
        create_order_ok_elim hres
      refine ⟨hnn, ?_, ?_⟩
      · rw [hprod, processCartItems_map_id hpr]
        exact hndp
      · rw [hcart]
        simp

theorem runOps_inv {st : State} (hInv : StateInv st) (ops : List Op) :
    StateInv (runOps st ops) := by
  induction ops generalizing st with
  | nil => exact hInv
  | cons op rest ih => exact ih (applyOp_inv hInv op)

/-! ### Claims C2-C5: checkout -/

/-- Claim C2: for every order produced by checkout from a non-empty cart, the
order's total_price equals the sum over its order items of product_price times
quantity, where each item's product_price (with name and sku) is the product's
price snapshotted at checkout time. -/
theorem order_total_c2 :
    ∀ (st st' : State) (o : Order),
      create_order st = .ok st' →
      st'.orders = st.orders ++ [o] →
      (o.total_price = sumSubtotals o.items ∧
       o.subtotal = o.total_price ∧
       ∀ oi ∈ o.items, ∃ p, lookupProduct st.products oi.product_id = some p ∧
         oi.product_price = p.price ∧ oi.product_name = p.name ∧
         oi.product_sku = p.sku) := by
  intro st st' o h horder
  obtain ⟨hv, total, items, ps', ht, hp, hprod, hcart, horders, -, -, -⟩ :=
    create_order_ok_elim h
  rw [horder] at horders
  have hsing := List.append_cancel_left horders
  simp only [List.cons.injEq, and_true] at hsing
  subst hsing
  refine ⟨?_, rfl, ?_⟩
  · have h2 := cartTotal_processCartItems hp
    rw [ht] at h2
    exact Option.some.inj h2
  · intro oi hoi
    obtain ⟨p, ci, hci, hlp, hoe⟩ := processCartItems_prices hp oi hoi
    subst hoe
    exact ⟨p, hlp, rfl, rfl, rfl⟩

theorem order_total_c2_witness :
    (create_order demoState = .ok demoAfter) ∧
    (demoAfter.orders = demoState.orders ++ [demoOrder]) ∧
    demoOrder.total_price = sumSubtotals demoOrder.items :=
  ⟨rfl, rfl, (order_total_c2 demoState demoAfter demoOrder rfl rfl).1⟩

/-- Claim C5: after every successful checkout the user's cart contains no
items (the cart is cleared as part of order creation, inside the same
transaction). -/
theorem cart_cleared_c5 :
    ∀ st st' : State, create_order st = .ok st' → st'.cart = [] := by
  intro st st' h
  obtain ⟨-, total, items, ps', -, -, -, hcart, -, -, -, -⟩ := create_order_ok_elim h
  exact hcart

theorem cart_cleared_c5_witness :
    create_order demoState = .ok demoAfter ∧ demoAfter.cart = [] :=
  ⟨rfl, cart_cleared_c5 demoState demoAfter rfl⟩

/-- Claim C4: checkout fails with a validation error if and only if the cart
is empty, contains a product that is no longer active, or contains an item
whose quantity exceeds the product's current stock (given referential
integrity of the cart's product foreign keys); and whenever checkout fails the
transaction rolls back, leaving the state unchanged. -/
theorem checkout_validation_c4 :
    ∀ st : State,
      (∀ ci ∈ st.cart, (lookupProduct st.products ci.product_id).isSome) →
      (((∃ e, create_order st = .error e) ↔
         (st.cart = [] ∨ ∃ ci ∈ st.cart, ∃ p,
           lookupProduct st.products ci.product_id = some p ∧
           (p.is_active = false ∨ (ci.quantity : Int) > p.stock))) ∧
       (∀ e, create_order st = .error e → applyOp st Op.checkout = st)) := by
  intro st hFK
  constructor
  · constructor
    · rintro ⟨e, he⟩
      unfold create_order at he
      by_cases hemp : st.cart.isEmpty
      · exact Or.inl (List.isEmpty_iff.mp hemp)
      · rw [if_neg hemp] at he
        cases hv : validateCartItems st.products st.cart with
        | error e' =>
          rcases validateCartItems_error_spec hv with ⟨ci, hci, hnone⟩ | hbad
          · have hk := hFK ci hci
            rw [hnone] at hk
            simp at hk
          · exact Or.inr hbad
        | ok u =>
          cases u
          simp only [hv] at he
          obtain ⟨t, ht⟩ := cartTotal_isSome hFK
          obtain ⟨items, ps', hp⟩ := processCartItems_isSome hFK
          simp only [ht, hp] at he
          cases he
    · intro hcond
      rcases hcond with hemp | ⟨ci, hci, p, hlp, hbad⟩
      · refine ⟨"Cart is empty. Cannot create order.", ?_⟩
        unfold create_order
        rw [if_pos (by simp [hemp])]
      · cases hres : create_order st with
        | error e => exact ⟨e, rfl⟩
        | ok st' =>
          exfalso
          obtain ⟨hv, -⟩ := create_order_ok_elim hres
          obtain ⟨p', hlp', hact, hle⟩ := validateCartItems_ok_spec hv ci hci
          rw [hlp] at hlp'
          obtain rfl := Option.some.inj hlp'
          rcases hbad with hinact | hover
          · rw [hact] at hinact; cases hinact
          · exact absurd hle (not_le.mpr hover)
  · intro e he
    simp only [applyOp]
    rw [he]

theorem checkout_validation_c4_witness :
    create_order emptyCartState = .error "Cart is empty. Cannot create order." ∧
    applyOp emptyCartState Op.checkout = emptyCartState :=
  ⟨rfl, (checkout_validation_c4 emptyCartState (by decide)).2
    "Cart is empty. Cannot create order." rfl⟩

/-- Claim C3: under the database invariants, no sequence of add-to-cart,
update-cart-item and checkout operations ever makes a product's stock
negative; a successful checkout decrements each purchased product's stock by
exactly the ordered quantity; and any `CartItem.save` whose quantity exceeds
the product's current stock is rejected with a `ValueError`. -/
theorem stock_safety_c3 :
    ∀ st : State, StateInv st →
      ((∀ ops : List Op, ∀ p ∈ (runOps st ops).products, 0 ≤ p.stock) ∧
       (∀ st', create_order st = .ok st' →
          ∀ ci ∈ st.cart, ∀ p, lookupProduct st.products ci.product_id = some p →
            lookupProduct st'.products ci.product_id =
              some { p with stock := p.stock - (ci.quantity : Int) }) ∧
       (∀ (p : Product) (q : Nat), (q : Int) > p.stock →
          CartItem.save p q = .error ("Quantity (" ++ toString q ++
            ") exceeds available stock (" ++ toString p.stock ++ ")"))) := by
  intro st hInv
  refine ⟨fun ops => (runOps_inv hInv ops).1, fun st' h ci hci p hp => ?_,
    fun p q hq => ?_⟩
  · obtain ⟨-, total, items, ps', -, hpr, hprod, -, -, -, -, -⟩ :=
      create_order_ok_elim h
    obtain ⟨hdec, -⟩ := processCartItems_stock hInv.2.2 hpr
    rw [hprod]
    exact hdec ci hci p hp
  · unfold CartItem.save
    rw [if_pos hq]

theorem stock_safety_c3_witness :
    StateInv demoState ∧
    (0 ≤ (({ id := 1, name := "Widget", price := 50, stock := 8,
             is_active := true, sku := "SKU-1" } : Product)).stock) ∧
    lookupProduct demoAfter.products 1 =
      some { id := 1, name := "Widget", price := 50, stock := 8,
             is_active := true, sku := "SKU-1" } ∧
    CartItem.save { id := 1, name := "Widget", price := 50, stock := 10,
                    is_active := true, sku := "SKU-1" } 11 =
      .error "Quantity (11) exceeds available stock (10)" := by
  have h := stock_safety_c3 demoState (by decide)
  refine ⟨by decide, ?_, ?_, ?_⟩
  · exact h.1 [Op.checkout]
      { id := 1, name := "Widget", price := 50, stock := 8,
        is_active := true, sku := "SKU-1" } (by decide)
  · have h2 := h.2.1 demoAfter rfl ⟨1, 2⟩ (by decide)
      { id := 1, name := "Widget", price := 50, stock := 10,
        is_active := true, sku := "SKU-1" } rfl
    simpa using h2
  · exact h.2.2 { id := 1, name := "Widget", price := 50, stock := 10,
                  is_active := true, sku := "SKU-1" } 11 (by decide)

/-! ### Claim C8: cart merge -/

/-- Claim C8: a cart never contains two items for the same product — adding a
product already in the cart leaves the set of cart rows unchanged and
increases the existing row's quantity by the requested amount, and the request
is rejected with a 400 error when the summed quantity would exceed the
product's stock. -/
theorem cart_merge_c8 :
    ∀ (st : State) (pid q : Nat) (ci : CartItem) (p : Product),
      (st.cart.map CartItem.product_id).Nodup →
      findCartItem st.cart pid = some ci →
      lookupProduct st.products pid = some p →
      ((∀ st', add_to_cart st pid q = .ok st' →
          st'.cart.map CartItem.product_id = st.cart.map CartItem.product_id ∧
          st'.cart.length = st.cart.length ∧
          findCartItem st'.cart pid = some { ci with quantity := ci.quantity + q } ∧
          (st'.cart.map CartItem.product_id).Nodup) ∧
       (p.is_active = true → 0 < p.stock → 1 ≤ q → (q : Int) ≤ p.stock →
          (ci.quantity : Int) + (q : Int) > p.stock →
          add_to_cart st pid q = .error (stockLimitMsg p))) := by
  intro st pid q ci p hnd hfind hlp
  constructor
  · intro st' h
    obtain ⟨hprod, -, -, -, -, hcart⟩ := add_to_cart_ok_elim h
    rcases hcart with ⟨hnone, -⟩ | ⟨ci', hfind', hc⟩
    · rw [hfind] at hnone; cases hnone
    · rw [hfind] at hfind'
      obtain rfl := Option.some.inj hfind'
      rw [hc]
      refine ⟨setCartQuantity_map_pid st.cart pid (ci.quantity + q), ?_, ?_, ?_⟩
      · simp [setCartQuantity]
      · rw [findCartItem_setCartQuantity, hfind]
        have hid := findCartItem_id hfind
        simp [hid]
      · rw [setCartQuantity_map_pid]
        exact hnd
  · intro hact hstock hq1 hqle hover
    exact add_to_cart_merge_reject hfind hlp hact hstock hq1 hqle hover

theorem cart_merge_c8_witness :
    (findCartItem demoState.cart 1 = some ⟨1, 2⟩) ∧
    (add_to_cart demoState 1 3 = .ok { demoState with cart := [⟨1, 5⟩, ⟨2, 1⟩] }) ∧
    (findCartItem ({ demoState with cart := [⟨1, 5⟩, ⟨2, 1⟩] } : State).cart 1 =
      some ⟨1, 5⟩) ∧
    (({ demoState with cart := [⟨1, 5⟩, ⟨2, 1⟩] } : State).cart.length =
      demoState.cart.length) ∧
    (add_to_cart demoState 1 9 =
      .error (stockLimitMsg { id := 1, name := "Widget", price := 50, stock := 10,
                              is_active := true, sku := "SKU-1" })) := by
  have h := cart_merge_c8 demoState 1 3 ⟨1, 2⟩
    { id := 1, name := "Widget", price := 50, stock := 10,
      is_active := true, sku := "SKU-1" } (by decide) rfl rfl
  have h9 := cart_merge_c8 demoState 1 9 ⟨1, 2⟩
    { id := 1, name := "Widget", price := 50, stock := 10,
      is_active := true, sku := "SKU-1" } (by decide) rfl rfl
  have hok := h.1 { demoState with cart := [⟨1, 5⟩, ⟨2, 1⟩] } rfl
  exact ⟨rfl, rfl, hok.2.2.1, hok.2.1,
    h9.2 rfl (by decide) (by decide) (by decide) (by decide)⟩

/-! ### Claim C1: status transitions -/

theorem setOrderStatus_not_found {db : List Order} {oid : Nat}
    (h : findOrder db oid = none) (s : String) : setOrderStatus db oid s = db := by
  unfold setOrderStatus
  have hall := List.find?_eq_none.mp h
  rw [show (db.map fun o => if o.id = oid then { o with status := s } else o) =
      db.map id from List.map_congr_left ?_, List.map_id]
  intro o ho
  have hne : o.id ≠ oid := by simpa using hall o ho
  simp [hne]

theorem bulkLoop_orders (s n : String) (ids : List Nat) (db : List Order) :
    (bulkLoop s n ids db).orders =
      db.map (fun o => if o.id ∈ ids then { o with status := s } else o) := by
  induction ids generalizing db with
  | nil =>
    simp only [bulkLoop]
    rw [show (db.map fun o =>
        if o.id ∈ ([] : List Nat) then { o with status := s } else o) = db.map id
      from List.map_congr_left ?_, List.map_id]
    intro o _
    simp
  | cons oid rest ih =>
    cases hf : findOrder db oid with
    | none =>
      simp only [bulkLoop, hf]
      rw [ih]
      apply List.map_congr_left
      intro o ho
      have hno : o.id ≠ oid := by
        have hall := List.find?_eq_none.mp hf o ho
        simpa using hall
      by_cases hmem : o.id ∈ rest <;> simp [List.mem_cons, hno, hmem]
    | some o0 =>
      simp only [bulkLoop, hf]
      rw [ih]
      unfold setOrderStatus
      rw [List.map_map]
      apply List.map_congr_left
      intro o ho
      by_cases hid : o.id = oid
      · by_cases hmem : o.id ∈ rest <;>
          simp [Function.comp, hid, hmem, List.mem_cons]
      · by_cases hmem : o.id ∈ rest <;>
          simp [Function.comp, hid, hmem, List.mem_cons]

theorem bulkLoop_updated (s n : String) (ids : List Nat) (db : List Order) :
    (bulkLoop s n ids db).updated_orders =
      ids.filter (fun oid => (findOrder db oid).isSome) := by
  induction ids generalizing db with
  | nil => simp [bulkLoop]
  | cons oid rest ih =>
    cases hf : findOrder db oid with
    | none =>
      simp only [bulkLoop, hf]
      rw [ih, List.filter_cons, if_neg (by simp [hf])]
    | some o0 =>
      simp only [bulkLoop, hf]
      rw [ih, List.filter_cons, if_pos (by simp [hf])]
      congr 1
      apply List.filter_congr
      intro oid' _
      show ((findOrder (setOrderStatus db oid s) oid').isSome : Bool) =
        ((findOrder db oid').isSome : Bool)
      unfold findOrder setOrderStatus
      rw [find?_map_preserve (fun o => if o.id = oid then { o with status := s } else o)
        (fun o => o.id == oid') ?_ db, Option.isSome_map']
      intro o
      by_cases h : o.id = oid <;> simp [h]

/-- Claim C1 (amended): the transition-table check guards only the
single-order update endpoint — there a requested status is accepted iff it is
a valid status choice and the pair (current, new) is in the
allowed-transition table, and otherwise the request is rejected with a
validation error, leaving the order unchanged.  The bulk update endpoint
checks only that the requested status is a valid status choice, and writes it
to every existing order in the list unconditionally, never consulting the
transition table. -/
theorem status_transition_c1 :
    (∀ (o : Order) (v n : String),
      ((∃ r, update_order_status o v n = .ok r) ↔
        (v ∈ STATUS_CHOICES ∧ v ∈ allowedFrom o.status))) ∧
    (∀ (db : List Order) (ids : List Nat) (s n : String),
      ids ≠ [] → s ∈ STATUS_CHOICES →
      ∃ out, bulk_update_order_status db ids s n = .ok out ∧
        out.orders =
          db.map (fun o => if o.id ∈ ids then { o with status := s } else o) ∧
        out.updated_orders = ids.filter (fun oid => (findOrder db oid).isSome) ∧
        (∀ o ∈ db, o.id ∈ ids → { o with status := s } ∈ out.orders)) := by
  constructor
  · intro o v n
    constructor
    · rintro ⟨r, hr⟩
      unfold update_order_status at hr
      split at hr
      · cases hr
      next h1 =>
        split at hr
        · cases hr
        next h2 =>
          have hc1 : STATUS_CHOICES.contains v = true := by simpa using h1
          have hc2 : (allowedFrom o.status).contains v = true := by simpa using h2
          exact ⟨by simpa using hc1, by simpa using hc2⟩
    · rintro ⟨hv, ha⟩
      have hcv : STATUS_CHOICES.contains v = true := by simpa using hv
      have hca : (allowedFrom o.status).contains v = true := by simpa using ha
      exact ⟨_, by
        unfold update_order_status
        rw [if_neg (by simpa using hv), if_neg (by simpa using ha)]⟩
  · intro db ids s n hne0 hs
    have hne : s ≠ "" := by
      intro he; subst he; exact absurd hs (by decide)
    refine ⟨bulkLoop s n ids db, ?_, bulkLoop_orders s n ids db,
      bulkLoop_updated s n ids db, ?_⟩
    · unfold bulk_update_order_status
      rw [if_neg (by simp [List.isEmpty_iff, hne0, hne]), if_neg (by simpa using hs)]
    · intro o ho hid
      rw [bulkLoop_orders]
      have hmem := List.mem_map_of_mem
        (fun o => if o.id ∈ ids then { o with status := s } else o) ho
      simpa [hid] using hmem

/-- The bulk endpoint accepts the pair (delivered, pending), which is not in
the allowed-transition table, and writes the new status. -/
theorem status_transition_c1_counterexample :
    ("pending" ∉ allowedFrom "delivered") ∧
    ((bulk_update_order_status [deliveredOrder] [7] "pending" "").map
        BulkOutcome.orders = .ok [{ deliveredOrder with status := "pending" }]) ∧
    ((bulk_update_order_status [deliveredOrder] [7] "pending" "").map
        BulkOutcome.updated_orders = .ok [7]) :=
  ⟨by decide, by rfl, by rfl⟩

theorem status_transition_c1_witness :
    ("cancelled" ∈ STATUS_CHOICES ∧ "cancelled" ∈ allowedFrom pendingOrder.status) ∧
    ((bulk_update_order_status [deliveredOrder, pendingOrder] [7, 99, 5] "cancelled" "").map
        BulkOutcome.orders =
      .ok [{ deliveredOrder with status := "cancelled" },
           { pendingOrder with status := "cancelled" }]) ∧
    ((bulk_update_order_status [deliveredOrder, pendingOrder] [7, 99, 5] "cancelled" "").map
        BulkOutcome.updated_orders = .ok [7, 5]) := by
  refine ⟨?_, ?_, ?_⟩
  · exact (status_transition_c1.1 pendingOrder "cancelled" "").mp
      ⟨({ pendingOrder with status := "cancelled" },
        { order_id := 5, old_status := "pending", new_status := "cancelled",
          notes := "Status changed from pending to cancelled" },
        [{ group := "user_1", notification_type := "order_updated", order_id := 5,
           message := "Order ORD-000005 status updated" }]), by rfl⟩
  · obtain ⟨out, hbulk, horders, hupd, hwrites⟩ :=
      status_transition_c1.2 [deliveredOrder, pendingOrder] [7, 99, 5] "cancelled" ""
        (by decide) (by decide)
    rw [hbulk]
    simp only [Except.map, horders]
    rfl
  · obtain ⟨out, hbulk, horders, hupd, hwrites⟩ :=
      status_transition_c1.2 [deliveredOrder, pendingOrder] [7, 99, 5] "cancelled" ""
        (by decide) (by decide)
    rw [hbulk]
    simp only [Except.map, hupd]
    rfl

/-! ### Claim C6: status-update effects -/

/-- Claim C6 (amended): every accepted single-order status update writes the
new status, appends an `OrderStatusHistory` row recording the old and new
status, and fires the post-save handler, which broadcasts one notification to
the channel group specific to the order's user only; the global `admins`
channel group is broadcast to only when an order is created. -/
theorem status_update_effects_c6 :
    ∀ (o : Order) (s n : String) (o' : Order) (hist : OrderStatusHistory)
      (ns : List Notification),
      update_order_status o s n = .ok (o', hist, ns) →
      (o'.status = s ∧ o'.id = o.id ∧ o'.user_id = o.user_id ∧
       hist.order_id = o.id ∧ hist.old_status = o.status ∧ hist.new_status = s ∧
       ns.map Notification.group = ["user_" ++ toString o.user_id] ∧
       (∀ x ∈ ns, x.group ≠ "admins") ∧
       (order_post_save true o').map Notification.group =
         ["user_" ++ toString o'.user_id, "admins"]) := by
  intro o s n o' hist ns h
  unfold update_order_status at h
  split at h
  · cases h
  · split at h
    · cases h
    · simp only [Except.ok.injEq, Prod.mk.injEq] at h
      obtain ⟨h1, h2, h3⟩ := h
      subst h1
      subst h2
      subst h3
      refine ⟨rfl, rfl, rfl, rfl, rfl, rfl, by simp [order_post_save], ?_, ?_⟩
      · intro x hx
        simp only [order_post_save, Bool.false_eq_true, if_false,
          List.mem_singleton] at hx
        subst hx
        intro he
        have hd : ("user_" ++ toString o.user_id).data = "admins".data :=
          congrArg String.data he
        rw [String.data_append] at hd
        injection hd with hhead htail
        exact absurd hhead (by decide)
      · simp [order_post_save]

/-- A status update broadcasts only to the user-specific group: the `admins`
group is absent from the groups messaged by `pending → cancelled`. -/
theorem status_update_effects_c6_counterexample :
    ((update_order_status pendingOrder "cancelled" "").map
        (fun r => r.2.2.map Notification.group) = .ok ["user_1"]) ∧
    ("admins" ∉ (["user_1"] : List String)) :=
  ⟨by rfl, by decide⟩

theorem status_update_effects_c6_witness :
    (update_order_status pendingOrder "cancelled" "" =
      .ok ({ pendingOrder with status := "cancelled" },
           { order_id := 5, old_status := "pending", new_status := "cancelled",
             notes := "Status changed from pending to cancelled" },
           [{ group := "user_1", notification_type := "order_updated",
              order_id := 5, message := "Order ORD-000005 status updated" }])) ∧
    ({ pendingOrder with status := "cancelled" } : Order).status = "cancelled" ∧
    (([{ group := "user_1", notification_type := "order_updated", order_id := 5,
         message := "Order ORD-000005 status updated" }] : List Notification).map
       Notification.group = ["user_" ++ toString pendingOrder.user_id]) := by
  have h := status_update_effects_c6 pendingOrder "cancelled" ""
    { pendingOrder with status := "cancelled" }
    { order_id := 5, old_status := "pending", new_status := "cancelled",
      notes := "Status changed from pending to cancelled" }
    [{ group := "user_1", notification_type := "order_updated",
       order_id := 5, message := "Order ORD-000005 status updated" }] (by rfl)
  exact ⟨by rfl, h.1, h.2.2.2.2.2.2.1⟩
